import Mathlib

/-!
Verification development for the llm-council backend.

Shallow embedding conventions:
* Python strings are `List Char` (`Str`); literals are written via `str "..."`.
* Asynchronous adapter calls are pure functions of an explicit environment
  describing the outside world (API keys, HTTP outcomes, the PATH lookup,
  subprocess outcomes); Python exceptions raised by collaborators are values
  of those outcome types, and a function that catches every exception is
  total.
* A Python function whose annotated return type is `Optional[dict]` is
  modelled with `Option`; returning `None` is `none`.
* Side effects of the CLI adapter (temp-file creation, process spawn,
  unlink) are collected in an explicit effect trace.
-/

set_option linter.unusedVariables false

namespace LLMCouncil

/-- Python strings, modelled as lists of characters. -/
abbrev Str := List Char

/-- Embed a Lean string literal as a `Str`. -/
def str (s : String) : Str := s.data

/-- A single-quote character (apostrophes in Python error messages are built
from this to keep literals simple). -/
def sq : Str := [Char.ofNat 39]

/-- `startsWithStr p s` models Python `s.startswith(p)`. -/
def startsWithStr : Str → Str → Bool
  | [], _ => true
  | _ :: _, [] => false
  | a :: p, b :: s => a = b && startsWithStr p s

theorem startsWithStr_iff (p s : Str) :
    startsWithStr p s = true ↔ ∃ r, s = p ++ r := by
  induction p generalizing s with
  | nil => simp [startsWithStr]
  | cons a p ih =>
    cases s with
    | nil =>
      simp only [startsWithStr]
      constructor
      · intro h; cases h
      · rintro ⟨r, hr⟩; cases hr
    | cons b s =>
      simp only [startsWithStr, Bool.and_eq_true, decide_eq_true_eq, ih]
      constructor
      · rintro ⟨rfl, r, rfl⟩; exact ⟨r, rfl⟩
      · rintro ⟨r, hr⟩
        injection hr with h1 h2
        exact ⟨h1.symm ▸ rfl, r, h2⟩

theorem startsWithStr_append (p r : Str) : startsWithStr p (p ++ r) = true :=
  (startsWithStr_iff p (p ++ r)).mpr ⟨r, rfl⟩

/-- `splitFirst c s` models Python `s.split(c, 1)` together with the
`c in s` membership test: `none` when the separator is absent, otherwise
the pieces before and after its first occurrence. -/
def splitFirst (c : Char) : Str → Option (Str × Str)
  | [] => none
  | x :: xs =>
    if x = c then some ([], xs)
    else
      match splitFirst c xs with
      | some pr => some (x :: pr.1, pr.2)
      | none => none

theorem splitFirst_eq_none_iff (c : Char) (l : Str) :
    splitFirst c l = none ↔ c ∉ l := by
  induction l with
  | nil => simp [splitFirst]
  | cons x xs ih =>
    simp only [splitFirst, List.mem_cons]
    by_cases hx : x = c
    · simp [hx]
    · cases h : splitFirst c xs with
      | some pr =>
        have hmem : c ∈ xs := by
          by_contra hc
          rw [ih.mpr hc] at h
          cases h
        simp [hx, hmem]
      | none =>
        have hcx : ¬ c = x := fun hc => hx hc.symm
        simp [hx, ih.mp h, hcx]

theorem splitFirst_eq_some (c : Char) (l p r : Str)
    (h : splitFirst c l = some (p, r)) : l = p ++ c :: r ∧ c ∉ p := by
  induction l generalizing p r with
  | nil => cases h
  | cons x xs ih =>
    simp only [splitFirst] at h
    by_cases hx : x = c
    · rw [if_pos hx] at h
      simp only [Option.some.injEq, Prod.mk.injEq] at h
      obtain ⟨h1, h2⟩ := h
      subst h1; subst h2; subst hx
      exact ⟨rfl, by simp⟩
    · rw [if_neg hx] at h
      cases hs : splitFirst c xs with
      | none => rw [hs] at h; cases h
      | some pr =>
        rw [hs] at h
        simp only [Option.some.injEq, Prod.mk.injEq] at h
        obtain ⟨h1, h2⟩ := h
        obtain ⟨hl, hnp⟩ := ih pr.1 pr.2 (by rw [hs])
        subst h2
        constructor
        · rw [← h1]; simp [hl]
        · rw [← h1]
          simp only [List.mem_cons]
          rintro (hc | hc)
          · exact hx hc.symm
          · exact hnp hc

theorem splitFirst_append (c : Char) (p r : Str) (hp : c ∉ p) :
    splitFirst c (p ++ c :: r) = some (p, r) := by
  induction p with
  | nil => simp [splitFirst]
  | cons x xs ih =>
    have hx : ¬ x = c := fun h => hp (by simp [h])
    have hxs : c ∉ xs := fun h => hp (by simp [h])
    simp [splitFirst, hx, ih hxs]

theorem append_ne_nil_left {l1 l2 : Str} (h : l1 ≠ []) : l1 ++ l2 ≠ [] := by
  cases l1 with
  | nil => exact absurd rfl h
  | cons a l => simp

/-! ## config.py -/

/-- `DIRECT_PROVIDERS` from `backend/config.py`: providers with direct hosted
support; all others fall back to OpenRouter. -/
def DIRECT_PROVIDERS : List Str := [str "openai", str "anthropic"]

/-- One per-tool record of `CLI_COMMANDS` in `backend/config.py`; absent keys
of the Python dict are represented by their `config.get(...)` defaults. -/
structure CliConfig where
  command : Str
  args : List Str
  timeout : Option Nat
  use_output_file : Bool
  use_positional_arg : Bool
  model_arg : List Str
  output_format_arg : List Str
  prompt_flag : Option Str
deriving DecidableEq

/-- The `"gemini"` record of `CLI_COMMANDS`. -/
def geminiConfig : CliConfig :=
  { command := str "gemini"
    args := [str "--allowed-tools", str "google_search"]
    timeout := some 120
    use_output_file := false
    use_positional_arg := false
    model_arg := [str "-m", str "gemini-2.5-pro"]
    output_format_arg := [str "--output-format", str "text"]
    prompt_flag := some (str "-p") }

/-- The `"claude"` record of `CLI_COMMANDS`. -/
def claudeConfig : CliConfig :=
  { command := str "claude"
    args := [str "-p", str "--allowedTools", str "WebSearch,WebFetch"]
    timeout := some 120
    use_output_file := false
    use_positional_arg := false
    model_arg := []
    output_format_arg := []
    prompt_flag := none }

/-- The `"codex"` record of `CLI_COMMANDS`. -/
def codexConfig : CliConfig :=
  { command := str "codex"
    args := [str "exec", str "--skip-git-repo-check", str "--enable",
             str "web_search_request"]
    timeout := some 120
    use_output_file := true
    use_positional_arg := false
    model_arg := []
    output_format_arg := []
    prompt_flag := none }

/-- `CLI_COMMANDS` from `backend/config.py` (insertion-ordered dict as an
association list). -/
def CLI_COMMANDS : List (Str × CliConfig) :=
  [(str "gemini", geminiConfig),
   (str "claude", claudeConfig),
   (str "codex", codexConfig)]

/-! ## providers/router.py : parse_model_identifier -/

/-- `parse_model_identifier` from `backend/providers/router.py`.
Returns `(route_to, provider, model_name)`. -/
def parse_model_identifier (model : Str) : Str × Str × Str :=
  -- Check for CLI prefix
  if startsWithStr (str "cli:") model then
    let cli_name := model.drop 4
    (str "cli", cli_name, cli_name)
  -- Check for explicit openrouter: prefix
  else if startsWithStr (str "openrouter:") model then
    let remaining := model.drop 11
    match splitFirst (Char.ofNat 47) remaining with
    | some pm => (str "openrouter", pm.1, pm.2)
    | none => (str "openrouter", str "unknown", remaining)
  else
    -- Parse standard provider/model format
    let pm :=
      match splitFirst (Char.ofNat 47) model with
      | some pm => pm
      | none => (str "unknown", model)
    -- Route to direct API if provider supports it
    if pm.1 ∈ DIRECT_PROVIDERS then (pm.1, pm.1, pm.2)
    -- Fallback to OpenRouter
    else (str "openrouter", pm.1, pm.2)

/-! ## main.py : _get_model_info -/

/-- The `configured` flags of the `api_keys` dict built in `health_check`. -/
structure ApiKeysConf where
  openrouter : Bool
  openai : Bool
  anthropic : Bool

/-- `_get_model_info` from `backend/main.py`, returning the pair of its
`type` and `ready` fields (`identifier` is the input itself).
`cli_tools` is the availability map `cli_tools.get(name, {}).get("available",
False)`. -/
def get_model_info (model : Str) (api_keys : ApiKeysConf)
    (cli_tools : Str → Bool) : Str × Bool :=
  if startsWithStr (str "cli:") model then
    (str "cli", cli_tools (model.drop 4))
  else if startsWithStr (str "openrouter:") model then
    (str "openrouter", api_keys.openrouter)
  else if startsWithStr (str "openai/") model then
    (str "openai", api_keys.openai)
  else if startsWithStr (str "anthropic/") model then
    (str "anthropic", api_keys.anthropic)
  else
    (str "openrouter", api_keys.openrouter)

/-! ## Lemmas connecting prefix tests with first-separator splits -/

theorem startsWith_word_slash_of_split (w model p r : Str)
    (hw : Char.ofNat 47 ∉ w)
    (h : splitFirst (Char.ofNat 47) model = some (p, r)) :
    startsWithStr (w ++ [Char.ofNat 47]) model = true ↔ p = w := by
  obtain ⟨hm, hnp⟩ := splitFirst_eq_some _ _ _ _ h
  constructor
  · intro hs
    obtain ⟨r2, hr2⟩ := (startsWithStr_iff _ _).mp hs
    have hm2 : model = w ++ Char.ofNat 47 :: r2 := by
      rw [hr2, List.append_assoc]; rfl
    have := splitFirst_append (Char.ofNat 47) w r2 hw
    rw [← hm2, h] at this
    simp only [Option.some.injEq, Prod.mk.injEq] at this
    exact this.1
  · intro hp
    subst hp
    apply (startsWithStr_iff _ _).mpr
    exact ⟨r, by rw [hm, List.append_assoc]; rfl⟩

theorem startsWith_word_slash_of_none (w model : Str)
    (h : splitFirst (Char.ofNat 47) model = none) :
    startsWithStr (w ++ [Char.ofNat 47]) model = false := by
  cases hs : startsWithStr (w ++ [Char.ofNat 47]) model
  · rfl
  · exfalso
    obtain ⟨r, hr⟩ := (startsWithStr_iff _ _).mp hs
    have hmem : Char.ofNat 47 ∈ model := by
      rw [hr]
      simp
    exact (splitFirst_eq_none_iff _ _).mp h hmem

/-- C3: the ordered parsing rules of `parse_model_identifier`.
(1) local-process marker: `cli:` prefix gives route `cli` with provider and
model name both the remainder; (2) explicit proxy marker: `openrouter:`
prefix gives route `openrouter` with the remainder split at the first
separator (provider `unknown` when none); (3) a `provider/model` identifier
whose provider is in `DIRECT_PROVIDERS` routes directly to that provider;
(4) every other identifier falls back to the `openrouter` proxy route. -/
theorem parse_model_identifier_rules (model : Str) :
    (∀ rest, model = str "cli:" ++ rest →
      parse_model_identifier model = (str "cli", rest, rest)) ∧
    (∀ rest, model = str "openrouter:" ++ rest →
      parse_model_identifier model =
        (str "openrouter",
          match splitFirst (Char.ofNat 47) rest with
          | some pm => pm
          | none => (str "unknown", rest))) ∧
    (∀ provider model_name,
      model = provider ++ Char.ofNat 47 :: model_name →
      Char.ofNat 47 ∉ provider →
      startsWithStr (str "cli:") model = false →
      startsWithStr (str "openrouter:") model = false →
      provider ∈ DIRECT_PROVIDERS →
      parse_model_identifier model = (provider, provider, model_name)) ∧
    (startsWithStr (str "cli:") model = false →
      startsWithStr (str "openrouter:") model = false →
      (∀ provider model_name,
        splitFirst (Char.ofNat 47) model = some (provider, model_name) →
        provider ∉ DIRECT_PROVIDERS) →
      (parse_model_identifier model).1 = str "openrouter") := by
  refine ⟨?_, ?_, ?_, ?_⟩
  · intro rest h
    subst h
    have hs : startsWithStr (str "cli:") (str "cli:" ++ rest) = true :=
      startsWithStr_append _ _
    have hd : (str "cli:" ++ rest).drop 4 = rest := by
      have h0 : (str "cli:").length = 4 := rfl
      rw [← h0]
      exact List.drop_left _ _
    simp [parse_model_identifier, hs, hd]
  · intro rest h
    subst h
    have hc : startsWithStr (str "cli:") (str "openrouter:" ++ rest) = false := rfl
    have hs : startsWithStr (str "openrouter:") (str "openrouter:" ++ rest) = true :=
      startsWithStr_append _ _
    have hd : (str "openrouter:" ++ rest).drop 11 = rest := by
      have h0 : (str "openrouter:").length = 11 := rfl
      rw [← h0]
      exact List.drop_left _ _
    simp only [parse_model_identifier, hc, Bool.false_eq_true, if_false, hs, if_true, hd]
    cases splitFirst (Char.ofNat 47) rest with
    | some pm => rfl
    | none => rfl
  · intro provider model_name h hnp hc ho hdir
    have hsp : splitFirst (Char.ofNat 47) model = some (provider, model_name) := by
      rw [h]; exact splitFirst_append _ _ _ hnp
    simp [parse_model_identifier, hc, ho, hsp, hdir]
  · intro hc ho hnd
    simp only [parse_model_identifier, hc, Bool.false_eq_true, if_false, ho]
    cases hsp : splitFirst (Char.ofNat 47) model with
    | some pm =>
      have := hnd pm.1 pm.2 (by rw [hsp])
      simp [this]
    | none =>
      have : str "unknown" ∉ DIRECT_PROVIDERS := by decide
      simp [this]

/-- Witness for `parse_model_identifier_rules`: each of the four rules
applied at a concrete identifier. -/
theorem parse_model_identifier_rules_witness :
    parse_model_identifier (str "cli:claude/x") =
      (str "cli", str "claude/x", str "claude/x") ∧
    parse_model_identifier (str "openrouter:google/gemini-2.5-pro") =
      (str "openrouter", str "google", str "gemini-2.5-pro") ∧
    parse_model_identifier (str "openai/gpt-4o") =
      (str "openai", str "openai", str "gpt-4o") ∧
    (parse_model_identifier (str "x-ai/grok-3")).1 = str "openrouter" := by
  refine ⟨?_, ?_, ?_, ?_⟩
  · exact (parse_model_identifier_rules (str "cli:claude/x")).1
      (str "claude/x") (by decide)
  · exact ((parse_model_identifier_rules
      (str "openrouter:google/gemini-2.5-pro")).2.1
      (str "google/gemini-2.5-pro") (by decide)).trans (by decide)
  · exact (parse_model_identifier_rules (str "openai/gpt-4o")).2.2.1
      (str "openai") (str "gpt-4o") (by decide) (by decide) (by decide)
      (by decide) (by decide)
  · exact (parse_model_identifier_rules (str "x-ai/grok-3")).2.2.2
      (by decide) (by decide)
      (fun provider model_name hsp => by
        have : provider = str "x-ai" ∧ model_name = str "grok-3" := by
          have h2 : splitFirst (Char.ofNat 47) (str "x-ai/grok-3") =
              some (str "x-ai", str "grok-3") := by decide
          rw [h2] at hsp
          simpa using hsp.symm
        rw [this.1]
        decide)

/-- C10: for every identifier, the `type` classification of `_get_model_info`
in `main.py` agrees with the route kind computed by
`parse_model_identifier` in the router. -/
theorem model_info_type_matches_router (model : Str) (ak : ApiKeysConf)
    (ct : Str → Bool) :
    (get_model_info model ak ct).1 = (parse_model_identifier model).1 := by
  have hoa : str "openai/" = str "openai" ++ [Char.ofNat 47] := by decide
  have han : str "anthropic/" = str "anthropic" ++ [Char.ofNat 47] := by decide
  cases hc : startsWithStr (str "cli:") model with
  | true => simp [get_model_info, parse_model_identifier, hc]
  | false =>
    cases ho : startsWithStr (str "openrouter:") model with
    | true =>
      simp only [get_model_info, parse_model_identifier, hc,
        Bool.false_eq_true, if_false, ho, if_true]
      cases splitFirst (Char.ofNat 47) (model.drop 11) with
      | some pm => rfl
      | none => rfl
    | false =>
      cases hsp : splitFirst (Char.ofNat 47) model with
      | none =>
        have h1 : startsWithStr (str "openai/") model = false := by
          rw [hoa]; exact startsWith_word_slash_of_none _ _ hsp
        have h2 : startsWithStr (str "anthropic/") model = false := by
          rw [han]; exact startsWith_word_slash_of_none _ _ hsp
        have hu : str "unknown" ∉ DIRECT_PROVIDERS := by decide
        simp [get_model_info, parse_model_identifier, hc, ho, h1, h2, hsp, hu]
      | some pm =>
        by_cases hp : pm.1 = str "openai"
        · have h1 : startsWithStr (str "openai/") model = true := by
            rw [hoa]
            exact (startsWith_word_slash_of_split (str "openai") model pm.1 pm.2
              (by decide) (by rw [hsp])).mpr hp
          have hd : str "openai" ∈ DIRECT_PROVIDERS := by decide
          simp [get_model_info, parse_model_identifier, hc, ho, h1, hsp, hp,
            if_pos hd]
        · by_cases hpa : pm.1 = str "anthropic"
          · have h1 : startsWithStr (str "openai/") model = false := by
              rw [hoa]
              cases hv : startsWithStr (str "openai" ++ [Char.ofNat 47]) model
              · rfl
              · exact absurd ((startsWith_word_slash_of_split (str "openai")
                  model pm.1 pm.2 (by decide) (by rw [hsp])).mp hv) hp
            have h2 : startsWithStr (str "anthropic/") model = true := by
              rw [han]
              exact (startsWith_word_slash_of_split (str "anthropic") model
                pm.1 pm.2 (by decide) (by rw [hsp])).mpr hpa
            have hd : str "anthropic" ∈ DIRECT_PROVIDERS := by decide
            simp [get_model_info, parse_model_identifier, hc, ho, h1, h2, hsp,
              hpa, if_pos hd]
          · have h1 : startsWithStr (str "openai/") model = false := by
              rw [hoa]
              cases hv : startsWithStr (str "openai" ++ [Char.ofNat 47]) model
              · rfl
              · exact absurd ((startsWith_word_slash_of_split (str "openai")
                  model pm.1 pm.2 (by decide) (by rw [hsp])).mp hv) hp
            have h2 : startsWithStr (str "anthropic/") model = false := by
              rw [han]
              cases hv : startsWithStr (str "anthropic" ++ [Char.ofNat 47]) model
              · rfl
              · exact absurd ((startsWith_word_slash_of_split (str "anthropic")
                  model pm.1 pm.2 (by decide) (by rw [hsp])).mp hv) hpa
            have hd : pm.1 ∉ DIRECT_PROVIDERS := by
              simp [DIRECT_PROVIDERS, hp, hpa]
            simp [get_model_info, parse_model_identifier, hc, ho, h1, h2, hsp,
              hd]

/-! ## Messages and adapter result values -/

/-- A chat message dict with `role` and `content` keys. -/
structure Msg where
  role : Str
  content : Str
deriving DecidableEq

/-- The dict value an adapter returns: either the success shape
with `content` and `reasoning_details` keys, or the CLI error shape
with `error: True` and the message under `content`. Python `None`
returns are `Option.none` of `Option Resp`. -/
inductive Resp where
  | full (content : Option Str) (reasoning_details : Option Str)
  | errDict (content : Str)
deriving DecidableEq

/-- Outcome of one HTTP POST as seen from inside the `try` block:
a decoded success body, `raise_for_status` firing, or any other
exception (transport error, JSON decode failure, missing key). -/
inductive HttpOutcome (α : Type) where
  | ok (body : α)
  | statusError (code : Nat) (text : Str)
  | exn (msg : Str)

/-- The `choices[0].message` object of an OpenAI-shaped response:
`message.get("content")` and `message.get("reasoning_details")`. -/
structure OpenAIMsg where
  content : Option Str
  reasoning_details : Option Str
deriving DecidableEq

/-- Python truthiness of an optional string credential
(`if not OPENAI_API_KEY`): unset or empty is falsy. -/
def truthyOpt : Option Str → Bool
  | none => false
  | some s => !s.isEmpty

/-! ## providers/openai_provider.py -/

/-- `query_openai` from `backend/providers/openai_provider.py`.
`key` is `OPENAI_API_KEY`; `respond` maps the posted model name and message
list to the HTTP outcome. Returns `none` exactly where the Python code
returns `None`. -/
def query_openai (key : Option Str)
    (respond : Str → List Msg → HttpOutcome OpenAIMsg)
    (model : Str) (messages : List Msg) (timeout : Nat) : Option Resp :=
  if !(truthyOpt key) then none
  else
    match respond model messages with
    | .ok message => some (.full message.content message.reasoning_details)
    | .statusError _ _ => none
    | .exn _ => none

/-! ## providers/openrouter_provider.py -/

/-- `query_openrouter` from `backend/providers/openrouter_provider.py`;
structurally identical to `query_openai` but reads `OPENROUTER_API_KEY`. -/
def query_openrouter (key : Option Str)
    (respond : Str → List Msg → HttpOutcome OpenAIMsg)
    (model : Str) (messages : List Msg) (timeout : Nat) : Option Resp :=
  if !(truthyOpt key) then none
  else
    match respond model messages with
    | .ok message => some (.full message.content message.reasoning_details)
    | .statusError _ _ => none
    | .exn _ => none

/-! ## providers/anthropic_provider.py -/

/-- One content block of an Anthropic response; `type`, `text` and
`thinking` are read with `block.get(...)` (string defaults `""`). -/
structure Block where
  type : Str
  text : Str
  thinking : Str
deriving DecidableEq

/-- The request body `query_anthropic` posts: the converted message list,
plus the `system` top-level field when it was set. -/
structure AnthropicPayload where
  model : Str
  messages : List Msg
  max_tokens : Nat
  system : Option Str
deriving DecidableEq

/-- The message-conversion loop of `query_anthropic` (lines 36-46):
every `system` message is diverted into `system_content` (later ones
overwrite earlier ones) and all other messages are appended in order. -/
def systemAndMessages (messages : List Msg) : Option Str × List Msg :=
  messages.foldl
    (fun acc msg =>
      if msg.role = str "system" then (some msg.content, acc.2)
      else (acc.1, acc.2 ++ [msg]))
    (none, [])

/-- The payload construction of `query_anthropic` (lines 48-55): the
`system` field is added only when `system_content` is truthy. -/
def anthropicPayload (model : Str) (messages : List Msg) : AnthropicPayload :=
  let sm := systemAndMessages messages
  { model := model
    messages := sm.2
    max_tokens := 8192
    system :=
      match sm.1 with
      | some c => if c.isEmpty then none else some c
      | none => none }

/-- The response-extraction loop of `query_anthropic` (lines 70-79):
concatenate the `text` of all `"text"` blocks in order and keep the
`thinking` of the latest `"thinking"` block. -/
def extractBlocks (content_blocks : List Block) : Str × Option Str :=
  content_blocks.foldl
    (fun acc block =>
      if block.type = str "text" then (acc.1 ++ block.text, acc.2)
      else if block.type = str "thinking" then (acc.1, some block.thinking)
      else acc)
    ([], none)

/-- `query_anthropic` from `backend/providers/anthropic_provider.py`.
`respond` maps the posted payload to the HTTP outcome whose success body is
the `content` block array. -/
def query_anthropic (key : Option Str)
    (respond : AnthropicPayload → HttpOutcome (List Block))
    (model : Str) (messages : List Msg) (timeout : Nat) : Option Resp :=
  if !(truthyOpt key) then none
  else
    let payload := anthropicPayload model messages
    match respond payload with
    | .ok content_blocks =>
      let er := extractBlocks content_blocks
      some (.full (some er.1) er.2)
    | .statusError _ _ => none
    | .exn _ => none

/-! ## providers/cli_provider.py -/

/-- Python `s.strip()`. -/
def stripStr (s : Str) : Str :=
  ((s.dropWhile Char.isWhitespace).reverse.dropWhile Char.isWhitespace).reverse

/-- Python `s.lower()`. -/
def toLowerStr (s : Str) : Str := s.map Char.toLower

/-- Python `sub in s` (substring containment). -/
def containsSub (s sub : Str) : Bool :=
  s.tails.any (fun t => startsWithStr sub t)

/-- Python `s.split(c)` (split on every occurrence). -/
def splitAll (c : Char) : Str → List Str
  | [] => [[]]
  | x :: xs =>
    match splitAll c xs with
    | [] => [[]]
    | r :: rs => if x = c then [] :: r :: rs else (x :: r) :: rs

/-- The stderr line filter of `query_cli` (line 104):
`("error" in lowercased line) or ("Error" in line)`. -/
def isErrorLine (l : Str) : Bool :=
  containsSub (toLowerStr l) (str "error") || containsSub l (str "Error")

/-- Decimal rendering of a number, for interpolated error messages. -/
def natToStr (n : Nat) : Str := (toString n).data

/-- Decimal rendering of an integer, for interpolated error messages. -/
def intToStr (i : Int) : Str := (toString i).data

/-- Python `repr` of a list of strings, as used by
`list(CLI_COMMANDS.keys())` inside an f-string. -/
def pyListRepr (keys : List Str) : Str :=
  str "[" ++ List.intercalate (str ", ") (keys.map (fun k => sq ++ k ++ sq))
    ++ str "]"

/-- Outcome of `create_subprocess_exec` + `wait_for(process.communicate())`:
normal completion with exit code and both streams, `asyncio.TimeoutError`,
or any other exception. -/
inductive RunOutcome where
  | completed (exitCode : Int) (stdout : Str) (stderr : Str)
  | timedOut
  | exn (msg : Str)

/-- External world of one `query_cli` call: `shutil.which`, the subprocess
run (a function of the argv and the stdin payload), the name
`tempfile.NamedTemporaryFile` hands out, and reading that file back
(which may raise). -/
structure CliEnv where
  which : Str → Bool
  run : List Str → Option Str → RunOutcome
  tempName : Str
  readTemp : Str → Except Str Str

/-- Observable side effects of a `query_cli` call. -/
inductive Eff where
  | createTemp (name : Str)
  | spawn (cmd : List Str) (stdinInput : Option Str)
  | unlink (name : Str)
deriving DecidableEq

/-- The message-flattening loop of `query_cli` (lines 49-60): system
messages as `System: ...`, user messages verbatim, assistant messages as
`Assistant: ...`; any other role is skipped. -/
def renderMsg (msg : Msg) : Option Str :=
  if msg.role = str "system" then some (str "System: " ++ msg.content)
  else if msg.role = str "user" then some msg.content
  else if msg.role = str "assistant" then some (str "Assistant: " ++ msg.content)
  else none

/-- `prompt = "\n\n".join(prompt_parts)` over the rendered messages. -/
def buildPrompt (messages : List Msg) : Str :=
  List.intercalate (str "\n\n") (messages.filterMap renderMsg)

/-- The prompt-delivery selection of `query_cli` (lines 67-86): output-file
mode appends `-o <tempname>` and the prompt; a truthy `prompt_flag` passes
the prompt as the flag value; positional mode appends the prompt; otherwise
the prompt goes to stdin. Returns `(cmd, stdin_input, creation effects)`. -/
def promptDelivery (config : CliConfig) (tempName : Str) (cmd0 : List Str)
    (prompt : Str) : List Str × Option Str × List Eff :=
  if config.use_output_file then
    (cmd0 ++ [str "-o", tempName] ++ [prompt], none, [Eff.createTemp tempName])
  else if promptFlagTruthy config.prompt_flag then
    (cmd0 ++ [config.prompt_flag.getD [], prompt], none, [])
  else if config.use_positional_arg then
    (cmd0 ++ [prompt], none, [])
  else
    (cmd0, some prompt, [])
where
  promptFlagTruthy : Option Str → Bool
    | some f => !f.isEmpty
    | none => false

/-- The stderr digest of the non-zero-exit branch (lines 102-108). -/
def stderrDigest (cli_stderr : Str) (exitCode : Int) : Str :=
  match (splitAll (Char.ofNat 10) cli_stderr).filter isErrorLine with
  | l :: _ => stripStr l
  | [] =>
    if !cli_stderr.isEmpty then cli_stderr.take 200
    else str "Exit code " ++ intToStr exitCode

/-- `query_cli` from `backend/providers/cli_provider.py`, returning the
result dict together with the trace of its side effects. The temp file it
creates is assumed to still exist at the `finally` block (nothing in the
model deletes it earlier), so the guarded `os.unlink` always runs when the
file was created. -/
def query_cli (env : CliEnv) (cli_name : Str) (messages : List Msg)
    (timeout : Nat) : Resp × List Eff :=
  match List.lookup cli_name CLI_COMMANDS with
  | none =>
    (.errDict (str "Error: Unknown CLI " ++ sq ++ cli_name ++ sq
        ++ str ". Available: " ++ pyListRepr (CLI_COMMANDS.map Prod.fst)), [])
  | some config =>
    -- Check if CLI exists
    if !(env.which config.command) then
      (.errDict (str "Error: CLI command " ++ sq ++ config.command ++ sq
          ++ str " not found in PATH"), [])
    else
      let cli_timeout := config.timeout.getD timeout
      let prompt := buildPrompt messages
      -- Build command
      let cmd0 := config.command ::
        (config.args ++ config.model_arg ++ config.output_format_arg)
      let d := promptDelivery config env.tempName cmd0 prompt
      let cmd := d.1
      let stdin_input := d.2.1
      let preEffs := d.2.2
      -- finally: clean up temp file
      let finEffs := if config.use_output_file then [Eff.unlink env.tempName]
        else []
      -- The Python `finally` makes the effect trace identical on every exit
      -- path of the try block, so it is paired once, outside the outcome
      -- dispatch.
      (match env.run cmd stdin_input with
        | .timedOut =>
          .errDict (str "Error: CLI " ++ sq ++ cli_name ++ sq
            ++ str " timed out after " ++ natToStr cli_timeout ++ str "s")
        | .exn m =>
          .errDict (str "Error: Error executing CLI " ++ sq ++ cli_name ++ sq
            ++ str ": " ++ m)
        | .completed exitCode cli_stdout cli_stderr =>
          if exitCode ≠ 0 then
            .errDict (str "Error: CLI " ++ sq ++ cli_name ++ sq
              ++ str " failed - " ++ stderrDigest cli_stderr exitCode)
          else if config.use_output_file then
            match env.readTemp env.tempName with
            | .ok filedata => .full (some (stripStr filedata)) none
            | .error m =>
              .errDict (str "Error: Error executing CLI " ++ sq ++ cli_name
                ++ sq ++ str ": " ++ m)
          else .full (some (stripStr cli_stdout)) none,
        preEffs ++ [Eff.spawn cmd stdin_input] ++ finEffs)

/-! ## providers/router.py : query_model and query_models_parallel -/

/-- External world of one routed query: the three credentials, the three
HTTP backends, and the CLI world. -/
structure Env where
  openaiKey : Option Str
  openaiHttp : Str → List Msg → HttpOutcome OpenAIMsg
  anthropicKey : Option Str
  anthropicHttp : AnthropicPayload → HttpOutcome (List Block)
  openrouterKey : Option Str
  openrouterHttp : Str → List Msg → HttpOutcome OpenAIMsg
  cli : CliEnv

/-- `query_model` from `backend/providers/router.py` (lines 64-94):
parse the identifier and dispatch to the matching adapter. -/
def query_model (env : Env) (model : Str) (messages : List Msg)
    (timeout : Nat) : Option Resp :=
  let r := parse_model_identifier model
  let route_to := r.1
  let provider := r.2.1
  let model_name := r.2.2
  if route_to = str "cli" then
    some (query_cli env.cli provider messages timeout).1
  else if route_to = str "openai" then
    query_openai env.openaiKey env.openaiHttp model_name messages timeout
  else if route_to = str "anthropic" then
    query_anthropic env.anthropicKey env.anthropicHttp model_name messages
      timeout
  else
    -- OpenRouter - reconstruct full model identifier without prefix
    let openrouter_model :=
      if startsWithStr (str "openrouter:") model then model.drop 11 else model
    query_openrouter env.openrouterKey env.openrouterHttp openrouter_model
      messages timeout

/-- Keys of a Python dict modelled as an association list. -/
def dictKeys {α : Type} (d : List (Str × α)) : List Str := d.map Prod.fst

/-- Insertion into a Python dict: an existing key is updated in place,
a new key is appended (insertion order preserved). -/
def dictInsert {α : Type} (d : List (Str × α)) (k : Str) (v : α) :
    List (Str × α) :=
  if k ∈ dictKeys d then
    d.map (fun p => if p.1 = k then (k, v) else p)
  else d ++ [(k, v)]

/-- A Python dict comprehension over a pair list. -/
def dictOfPairs {α : Type} (l : List (Str × α)) : List (Str × α) :=
  l.foldl (fun d p => dictInsert d p.1 p.2) []

/-- `query_models_parallel` from `backend/providers/router.py`
(lines 97-118): `asyncio.gather` keeps one response per task in input
order (each adapter converts its own failures to values, so no task
raises), and the dict comprehension zips models with responses. -/
def query_models_parallel (env : Env) (models : List Str)
    (messages : List Msg) : List (Str × Option Resp) :=
  let responses := models.map (fun model => query_model env model messages 120)
  dictOfPairs (models.zip responses)

/-! ## main.py : the streaming event generator and send_message -/

/-- Server-sent events emitted by `event_generator`. -/
inductive Ev where
  | stage1_start
  | stage1_complete
  | stage2_start
  | stage2_complete
  | stage3_start
  | stage3_complete
  | title_complete
  | complete
  | error (message : Str)
deriving DecidableEq

/-- Operations (awaits, task creation, storage writes, event yields)
performed by the handlers in `backend/main.py`, in execution order. -/
inductive Op where
  | addUser
  | startTitleTask
  | awaitStage1
  | awaitStage2
  | computeAggregate
  | awaitStage3
  | awaitTitle
  | updateTitle
  | saveAssistant
  | runCouncil
  | yieldEv (e : Ev)
deriving DecidableEq

/-- Outcomes of the collaborator calls awaited by `event_generator`
(`council.py` and `storage.py` are outside the adapter layer; any
exception they raise is caught by the `try` of the generator). Payloads are
opaque. -/
structure StreamEnv where
  addUserRes : Except Str Unit
  stage1 : Except Str Str
  stage2 : Str → Except Str (Str × Str)
  aggregate : Str → Str → Except Str Str
  stage3 : Str → Str → Except Str Str
  titleRes : Except Str Str
  updateTitleRes : Str → Except Str Unit
  saveRes : Except Str Unit

/-- The tail of `event_generator` after Stage 3: save the assistant
message, then yield the `complete` terminal (lines 287-296). -/
def saveTail (env : StreamEnv) : List Op :=
  Op.saveAssistant ::
    match env.saveRes with
    | .error e => [Op.yieldEv (.error e)]
    | .ok _ => [Op.yieldEv .complete]

/-- Operation trace of `event_generator` in
`send_message_stream` (`backend/main.py` lines 255-300). `isFirst` is
`is_first_message`, computed before the generator runs. The `except`
clause turns the first raising await into a single `error` yield. -/
def genTrace (isFirst : Bool) (env : StreamEnv) : List Op :=
  Op.addUser ::
    match env.addUserRes with
    | .error e => [Op.yieldEv (.error e)]
    | .ok _ =>
      (if isFirst then [Op.startTitleTask] else []) ++
      Op.yieldEv .stage1_start :: Op.awaitStage1 ::
        match env.stage1 with
        | .error e => [Op.yieldEv (.error e)]
        | .ok s1 =>
          Op.yieldEv .stage1_complete :: Op.yieldEv .stage2_start ::
          Op.awaitStage2 ::
            match env.stage2 s1 with
            | .error e => [Op.yieldEv (.error e)]
            | .ok s2lm =>
              Op.computeAggregate ::
                match env.aggregate s2lm.1 s2lm.2 with
                | .error e => [Op.yieldEv (.error e)]
                | .ok _agg =>
                  Op.yieldEv .stage2_complete :: Op.yieldEv .stage3_start ::
                  Op.awaitStage3 ::
                    match env.stage3 s1 s2lm.1 with
                    | .error e => [Op.yieldEv (.error e)]
                    | .ok _s3 =>
                      Op.yieldEv .stage3_complete ::
                        (if isFirst then
                          Op.awaitTitle ::
                            match env.titleRes with
                            | .error e => [Op.yieldEv (.error e)]
                            | .ok t =>
                              Op.updateTitle ::
                                match env.updateTitleRes t with
                                | .error e => [Op.yieldEv (.error e)]
                                | .ok _ =>
                                  Op.yieldEv .title_complete :: saveTail env
                        else saveTail env)

/-- The events a trace yields, in order. -/
def eventsOf (ops : List Op) : List Ev :=
  ops.filterMap (fun op =>
    match op with
    | .yieldEv e => some e
    | _ => none)

/-- The SSE stream produced by one run of `event_generator`. -/
def event_generator (isFirst : Bool) (env : StreamEnv) : List Ev :=
  eventsOf (genTrace isFirst env)

/-- Trace of the streaming endpoint `send_message_stream` for a
conversation holding `priorMessages` messages before this turn
(`is_first_message = len(conversation["messages"]) == 0`). -/
def send_message_stream_trace (priorMessages : Nat) (env : StreamEnv) :
    List Op :=
  genTrace (priorMessages == 0) env

/-- Operation trace of the non-streaming handler `send_message`
(`backend/main.py` lines 197-238): the title call is awaited to
completion before `run_full_council` starts. Collaborator outcomes are
irrelevant to the ordering facts proved about this trace, so the calls
are recorded unconditionally. -/
def send_message_trace (priorMessages : Nat) : List Op :=
  Op.addUser ::
    ((if priorMessages == 0 then [Op.awaitTitle, Op.updateTitle] else []) ++
      [Op.runCouncil, Op.saveAssistant])

/-- The happy-path event prefix before the terminal event. -/
def canonicalEvents : List Ev :=
  [.stage1_start, .stage1_complete, .stage2_start, .stage2_complete,
   .stage3_start, .stage3_complete, .title_complete]

/-- Terminal events of the stream. -/
def isTerminal : Ev → Bool
  | .complete => true
  | .error _ => true
  | _ => false

/-- C4: every run of `event_generator` yields a prefix of the canonical
stage order `stage1_start, stage1_complete, stage2_start, stage2_complete,
stage3_start, stage3_complete`, optionally `title_complete`, followed by a
single terminal event (`complete` or `error`); the terminal is the last
event and no other event is terminal. -/
theorem event_stream_shape (isFirst : Bool) (env : StreamEnv) :
    ∃ k t,
      event_generator isFirst env = canonicalEvents.take k ++ [t] ∧
      isTerminal t = true ∧
      ((event_generator isFirst env).filter isTerminal).length = 1 := by
  obtain ⟨au, s1f, s2f, agf, s3f, tif, utf, svf⟩ := env
  simp only [event_generator, genTrace, saveTail]
  cases isFirst with
  | false =>
    cases au with
    | error e => exact ⟨0, .error e, rfl, rfl, rfl⟩
    | ok u =>
      cases s1f with
      | error e => exact ⟨1, .error e, rfl, rfl, rfl⟩
      | ok s1 =>
        dsimp only
        cases h2 : s2f s1 with
        | error e => exact ⟨3, .error e, rfl, rfl, rfl⟩
        | ok s2lm =>
          dsimp only
          cases h3 : agf s2lm.1 s2lm.2 with
          | error e => exact ⟨3, .error e, rfl, rfl, rfl⟩
          | ok agg =>
            dsimp only
            cases h4 : s3f s1 s2lm.1 with
            | error e => exact ⟨5, .error e, rfl, rfl, rfl⟩
            | ok s3 =>
              cases svf with
              | error e => exact ⟨6, .error e, rfl, rfl, rfl⟩
              | ok _ => exact ⟨6, .complete, rfl, rfl, rfl⟩
  | true =>
    cases au with
    | error e => exact ⟨0, .error e, rfl, rfl, rfl⟩
    | ok u =>
      cases s1f with
      | error e => exact ⟨1, .error e, rfl, rfl, rfl⟩
      | ok s1 =>
        dsimp only
        cases h2 : s2f s1 with
        | error e => exact ⟨3, .error e, rfl, rfl, rfl⟩
        | ok s2lm =>
          dsimp only
          cases h3 : agf s2lm.1 s2lm.2 with
          | error e => exact ⟨3, .error e, rfl, rfl, rfl⟩
          | ok agg =>
            dsimp only
            cases h4 : s3f s1 s2lm.1 with
            | error e => exact ⟨5, .error e, rfl, rfl, rfl⟩
            | ok s3 =>
              cases tif with
              | error e => exact ⟨6, .error e, rfl, rfl, rfl⟩
              | ok t =>
                dsimp only
                cases h5 : utf t with
                | error e => exact ⟨6, .error e, rfl, rfl, rfl⟩
                | ok _ =>
                  cases svf with
                  | error e => exact ⟨7, .error e, rfl, rfl, rfl⟩
                  | ok _ => exact ⟨7, .complete, rfl, rfl, rfl⟩

/-- Index of the first occurrence of an operation in a trace (length of the
trace when absent). -/
def posOf (x : Op) : List Op → Nat
  | [] => 0
  | y :: ys => if y = x then 0 else posOf x ys + 1

/-- C9 counterexample: in the non-streaming handler `send_message`, the
title generation for a first message is awaited to completion *before*
`run_full_council` (which contains Stages 1-3) starts, so it is not
"awaited only after Stage 3" and does not run concurrently with the
stage sequence. -/
theorem send_message_title_before_council :
    Op.awaitTitle ∈ send_message_trace 0 ∧
    Op.runCouncil ∈ send_message_trace 0 ∧
    posOf Op.awaitTitle (send_message_trace 0) <
      posOf Op.runCouncil (send_message_trace 0) := by
  decide

/-- C9 (amended): a title is generated if and only if the conversation held
zero messages before the turn, in both handlers; in the *streaming* handler
the title task is started before Stage 1 is awaited and the task is awaited
only after Stage 3; in the non-streaming handler the title call completes
before the council runs (see the counterexample). -/
theorem title_generation_policy (priorMessages : Nat) (env : StreamEnv) :
    (Op.awaitTitle ∈ send_message_trace priorMessages ↔ priorMessages = 0) ∧
    (env.addUserRes = Except.ok () →
      (Op.startTitleTask ∈ send_message_stream_trace priorMessages env ↔
        priorMessages = 0)) ∧
    (Op.startTitleTask ∈ send_message_stream_trace priorMessages env →
      Op.awaitStage1 ∈ send_message_stream_trace priorMessages env ∧
      posOf Op.startTitleTask (send_message_stream_trace priorMessages env) <
        posOf Op.awaitStage1 (send_message_stream_trace priorMessages env)) ∧
    (Op.awaitTitle ∈ send_message_stream_trace priorMessages env →
      Op.awaitStage3 ∈ send_message_stream_trace priorMessages env ∧
      posOf Op.awaitStage3 (send_message_stream_trace priorMessages env) <
        posOf Op.awaitTitle (send_message_stream_trace priorMessages env)) := by
  obtain ⟨au, s1f, s2f, agf, s3f, tif, utf, svf⟩ := env
  simp only [send_message_stream_trace, genTrace, saveTail]
  cases priorMessages with
  | zero =>
    cases au with
    | error e => dsimp only; simp [send_message_trace, posOf]
    | ok u =>
      cases u
      cases s1f with
      | error e => dsimp only; simp [send_message_trace, posOf]
      | ok s1 =>
        dsimp only
        cases h2 : s2f s1 with
        | error e => dsimp only; simp [send_message_trace, posOf]
        | ok s2lm =>
          dsimp only
          cases h3 : agf s2lm.1 s2lm.2 with
          | error e => dsimp only; simp [send_message_trace, posOf]
          | ok agg =>
            dsimp only
            cases h4 : s3f s1 s2lm.1 with
            | error e => dsimp only; simp [send_message_trace, posOf]
            | ok s3 =>
              cases tif with
              | error e => dsimp only; simp [send_message_trace, posOf]
              | ok t =>
                dsimp only
                cases h5 : utf t with
                | error e => dsimp only; simp [send_message_trace, posOf]
                | ok u2 =>
                  cases svf with
                  | error e => dsimp only; simp [send_message_trace, posOf]
                  | ok _ => dsimp only; simp [send_message_trace, posOf]
  | succ n =>
    cases au with
    | error e => dsimp only; simp [send_message_trace, posOf]
    | ok u =>
      cases u
      cases s1f with
      | error e => dsimp only; simp [send_message_trace, posOf]
      | ok s1 =>
        dsimp only
        cases h2 : s2f s1 with
        | error e => dsimp only; simp [send_message_trace, posOf]
        | ok s2lm =>
          dsimp only
          cases h3 : agf s2lm.1 s2lm.2 with
          | error e => dsimp only; simp [send_message_trace, posOf]
          | ok agg =>
            dsimp only
            cases h4 : s3f s1 s2lm.1 with
            | error e => dsimp only; simp [send_message_trace, posOf]
            | ok s3 =>
              cases svf with
              | error e => dsimp only; simp [send_message_trace, posOf]
              | ok _ => dsimp only; simp [send_message_trace, posOf]

/-- A fully successful collaborator environment for one streaming run. -/
def demoStreamEnv : StreamEnv :=
  { addUserRes := .ok ()
    stage1 := .ok (str "stage1 data")
    stage2 := fun _ => .ok (str "stage2 data", str "label map")
    aggregate := fun _ _ => .ok (str "aggregate")
    stage3 := fun _ _ => .ok (str "final answer")
    titleRes := .ok (str "a title")
    updateTitleRes := fun _ => .ok ()
    saveRes := .ok () }

/-- Witness for `title_generation_policy` at a concrete first-message run. -/
theorem title_generation_policy_witness :
    Op.startTitleTask ∈ send_message_stream_trace 0 demoStreamEnv ∧
    posOf Op.startTitleTask (send_message_stream_trace 0 demoStreamEnv) <
      posOf Op.awaitStage1 (send_message_stream_trace 0 demoStreamEnv) ∧
    posOf Op.awaitStage3 (send_message_stream_trace 0 demoStreamEnv) <
      posOf Op.awaitTitle (send_message_stream_trace 0 demoStreamEnv) := by
  have h := title_generation_policy 0 demoStreamEnv
  have hb : Op.startTitleTask ∈ send_message_stream_trace 0 demoStreamEnv :=
    (h.2.1 rfl).mpr rfl
  have hd : Op.awaitTitle ∈ send_message_stream_trace 0 demoStreamEnv := by
    decide
  exact ⟨hb, (h.2.2.1 hb).2, (h.2.2.2 hd).2⟩

/-! ## Python-dict lemmas for query_models_parallel -/

/-- Folding a pair list into a dict, starting from accumulator `d`. -/
def dictExtend {α : Type} (d : List (Str × α)) (l : List (Str × α)) :
    List (Str × α) :=
  l.foldl (fun d p => dictInsert d p.1 p.2) d

theorem dictOfPairs_eq_extend {α : Type} (l : List (Str × α)) :
    dictOfPairs l = dictExtend [] l := rfl

theorem dictKeys_dictInsert {α : Type} (d : List (Str × α)) (k : Str) (v : α) :
    dictKeys (dictInsert d k v) =
      if k ∈ dictKeys d then dictKeys d else dictKeys d ++ [k] := by
  by_cases h : k ∈ dictKeys d
  · rw [dictInsert, if_pos h, if_pos h]
    unfold dictKeys
    rw [List.map_map]
    apply List.map_congr_left
    intro p hp
    by_cases hp1 : p.1 = k
    · simp [hp1]
    · simp [hp1]
  · rw [dictInsert, if_neg h, if_neg h]
    simp [dictKeys]

theorem dictInsert_length {α : Type} (d : List (Str × α)) (k : Str) (v : α) :
    (dictInsert d k v).length =
      if k ∈ dictKeys d then d.length else d.length + 1 := by
  by_cases h : k ∈ dictKeys d
  · rw [dictInsert, if_pos h, if_pos h, List.length_map]
  · rw [dictInsert, if_neg h, if_neg h]
    simp

theorem mem_dictKeys_dictExtend {α : Type} (l : List (Str × α)) :
    ∀ (d : List (Str × α)) (k : Str),
      k ∈ dictKeys (dictExtend d l) ↔ k ∈ dictKeys d ∨ k ∈ l.map Prod.fst := by
  induction l with
  | nil => intro d k; simp [dictExtend]
  | cons p tl ih =>
    intro d k
    have hstep : dictExtend d (p :: tl) = dictExtend (dictInsert d p.1 p.2) tl :=
      rfl
    rw [hstep, ih]
    rw [dictKeys_dictInsert]
    by_cases h : p.1 ∈ dictKeys d
    · rw [if_pos h]
      simp only [List.map_cons, List.mem_cons]
      constructor
      · rintro (hk | hk)
        · exact Or.inl hk
        · exact Or.inr (Or.inr hk)
      · rintro (hk | hk | hk)
        · exact Or.inl hk
        · exact Or.inl (hk ▸ h)
        · exact Or.inr hk
    · rw [if_neg h]
      simp only [List.mem_append, List.mem_singleton, List.map_cons,
        List.mem_cons]
      tauto

/-- Every value in the dict is determined by its key via `f`. -/
def keyedBy {α : Type} (f : Str → α) (d : List (Str × α)) : Prop :=
  ∀ p ∈ d, p.2 = f p.1

theorem keyedBy_dictInsert {α : Type} (f : Str → α) (d : List (Str × α))
    (k : Str) (hd : keyedBy f d) : keyedBy f (dictInsert d k (f k)) := by
  intro p hp
  rw [dictInsert] at hp
  by_cases h : k ∈ dictKeys d
  · rw [if_pos h] at hp
    obtain ⟨q, hq, hqp⟩ := List.mem_map.mp hp
    by_cases hq1 : q.1 = k
    · rw [if_pos hq1] at hqp
      rw [← hqp]
    · rw [if_neg hq1] at hqp
      rw [← hqp]
      exact hd q hq
  · rw [if_neg h] at hp
    rcases List.mem_append.mp hp with hq | hq
    · exact hd p hq
    · rw [List.mem_singleton.mp hq]

theorem keyedBy_dictExtend {α : Type} (f : Str → α) (l : List Str) :
    ∀ (d : List (Str × α)), keyedBy f d →
      keyedBy f (dictExtend d (l.map (fun m => (m, f m)))) := by
  induction l with
  | nil => intro d hd; exact hd
  | cons m tl ih =>
    intro d hd
    exact ih (dictInsert d m (f m)) (keyedBy_dictInsert f d m hd)

theorem lookup_of_keyedBy {α : Type} (f : Str → α) (d : List (Str × α))
    (hd : keyedBy f d) (k : Str) (hk : k ∈ dictKeys d) :
    List.lookup k d = some (f k) := by
  induction d with
  | nil => cases hk
  | cons q tl ih =>
    by_cases hq : k = q.1
    · have hb : (k == q.1) = true := beq_iff_eq.mpr hq
      simp only [List.lookup, hb]
      rw [hd q (List.mem_cons_self q tl), hq]
    · have hb : (k == q.1) = false := by
        simpa using hq
      simp only [List.lookup, hb]
      apply ih
      · intro p hp; exact hd p (List.mem_cons_of_mem q hp)
      · rcases List.mem_cons.mp hk with h | h
        · exact absurd h hq
        · exact h

theorem length_dictExtend {α : Type} (l : List (Str × α)) :
    ∀ (d : List (Str × α)), (l.map Prod.fst).Nodup →
      (∀ k ∈ l.map Prod.fst, k ∉ dictKeys d) →
      (dictExtend d l).length = d.length + l.length := by
  induction l with
  | nil => intro d _ _; simp [dictExtend]
  | cons p tl ih =>
    intro d hnd hdisj
    have hstep : dictExtend d (p :: tl) = dictExtend (dictInsert d p.1 p.2) tl :=
      rfl
    have hp1 : p.1 ∉ dictKeys d :=
      hdisj p.1 (List.mem_cons_self p.1 (tl.map Prod.fst))
    have hnd0 : (p.1 :: tl.map Prod.fst).Nodup := hnd
    have hnd' : (tl.map Prod.fst).Nodup := (List.nodup_cons.mp hnd0).2
    have hhd : p.1 ∉ tl.map Prod.fst := (List.nodup_cons.mp hnd0).1
    have hdisj' : ∀ k ∈ tl.map Prod.fst, k ∉ dictKeys (dictInsert d p.1 p.2) := by
      intro k hk
      rw [dictKeys_dictInsert, if_neg hp1]
      intro hmem
      rcases List.mem_append.mp hmem with h | h
      · exact hdisj k (List.mem_cons_of_mem _ hk) h
      · exact hhd (List.mem_singleton.mp h ▸ hk)
    rw [hstep, ih (dictInsert d p.1 p.2) hnd' hdisj', dictInsert_length,
      if_neg hp1]
    simp only [List.length_cons]
    omega

theorem zip_self_map {α : Type} (f : Str → α) (l : List Str) :
    l.zip (l.map f) = l.map (fun m => (m, f m)) := by
  induction l with
  | nil => rfl
  | cons m tl ih => simp [ih]

/-- A CLI world with nothing on the PATH. -/
def emptyCliEnv : CliEnv :=
  { which := fun _ => false
    run := fun _ _ => RunOutcome.timedOut
    tempName := str "tmpfile"
    readTemp := fun _ => Except.error (str "unread") }

/-- An environment in which every backend is unconfigured or failing. -/
def offlineEnv : Env :=
  { openaiKey := none
    openaiHttp := fun _ _ => HttpOutcome.exn (str "offline")
    anthropicKey := none
    anthropicHttp := fun _ => HttpOutcome.exn (str "offline")
    openrouterKey := none
    openrouterHttp := fun _ _ => HttpOutcome.exn (str "offline")
    cli := emptyCliEnv }

/-- C2 counterexample: over the 2-element input list `["a", "a"]`,
`query_models_parallel` returns 1 entry, not exactly N = 2. -/
theorem query_models_parallel_duplicate_loses_entry :
    (query_models_parallel offlineEnv [str "a", str "a"] []).length = 1 ∧
    ([str "a", str "a"] : List Str).length = 2 := by
  constructor
  · rfl
  · rfl

/-- C2 (amended): `query_models_parallel` returns exactly one entry per
*distinct* input identifier: its keys are exactly the input identifiers,
every input identifier maps to the result of its own routed call (so no
failure of a call discards a sibling entry), and for a duplicate-free list of
N identifiers there are exactly N entries. -/
theorem query_models_parallel_entries (env : Env) (models : List Str)
    (messages : List Msg) :
    (∀ m, m ∈ dictKeys (query_models_parallel env models messages) ↔
      m ∈ models) ∧
    (∀ m ∈ models,
      List.lookup m (query_models_parallel env models messages) =
        some (query_model env m messages 120)) ∧
    (models.Nodup →
      (query_models_parallel env models messages).length = models.length) := by
  have hqmp : query_models_parallel env models messages =
      dictExtend []
        (models.map (fun m => (m, query_model env m messages 120))) := by
    rw [query_models_parallel, zip_self_map, dictOfPairs_eq_extend]
  have hfst : (models.map
      (fun m => (m, query_model env m messages 120))).map Prod.fst = models := by
    rw [List.map_map]
    exact List.map_id models
  refine ⟨?_, ?_, ?_⟩
  · intro m
    rw [hqmp, mem_dictKeys_dictExtend, hfst]
    simp [dictKeys]
  · intro m hm
    have hkeyed : keyedBy (fun m => query_model env m messages 120)
        (query_models_parallel env models messages) := by
      rw [hqmp]
      exact keyedBy_dictExtend _ models [] (by intro p hp; cases hp)
    have hmem : m ∈ dictKeys (query_models_parallel env models messages) := by
      rw [hqmp, mem_dictKeys_dictExtend, hfst]
      exact Or.inr hm
    exact lookup_of_keyedBy _ _ hkeyed m hmem
  · intro hnd
    rw [hqmp, length_dictExtend _ [] (by rw [hfst]; exact hnd)
      (by intro k _ hk; cases hk)]
    simp

/-- Witness for `query_models_parallel_entries` at a concrete input. -/
theorem query_models_parallel_entries_witness :
    List.lookup (str "x") (query_models_parallel offlineEnv [str "x"] []) =
      some (query_model offlineEnv (str "x") [] 120) ∧
    (query_models_parallel offlineEnv [str "x"] []).length = 1 := by
  have h := query_models_parallel_entries offlineEnv [str "x"] []
  exact ⟨h.2.1 (str "x") (by simp), h.2.2 (by simp)⟩

/-! ## Characterization of the Anthropic message/response translation -/

/-- Does a message carry the `system` role? -/
def isSystemRole (m : Msg) : Bool := decide (m.role = str "system")

/-- Does a message carry a non-`system` role? -/
def notSystemRole (m : Msg) : Bool := !(isSystemRole m)

/-- Is a block `"text"`-typed? -/
def isTextBlock (b : Block) : Bool := decide (b.type = str "text")

/-- Is a block `"thinking"`-typed? -/
def isThinkingBlock (b : Block) : Bool := decide (b.type = str "thinking")

/-- Concatenation of a list of strings, in order. -/
def concatAll (l : List Str) : Str := l.foldr (fun a b => a ++ b) []

theorem getLast?_cons_eq {α : Type} (a : α) (l : List α) :
    (a :: l).getLast? = some (l.getLast?.getD a) := by
  induction l generalizing a with
  | nil => rfl
  | cons b tl ih => simp [List.getLast?_cons_cons, ih b]

theorem systemAndMessages_spec (messages : List Msg) :
    ∀ (s0 : Option Str) (l0 : List Msg),
      messages.foldl
        (fun acc msg =>
          if msg.role = str "system" then (some msg.content, acc.2)
          else (acc.1, acc.2 ++ [msg])) (s0, l0) =
      ((match (messages.filter isSystemRole).getLast? with
        | some m => some m.content
        | none => s0),
        l0 ++ messages.filter notSystemRole) := by
  induction messages with
  | nil => intro s0 l0; simp
  | cons m tl ih =>
    intro s0 l0
    rw [List.foldl_cons]
    by_cases h : m.role = str "system"
    · have hsys : isSystemRole m = true := decide_eq_true h
      have hnot : notSystemRole m = false := by
        rw [notSystemRole, hsys]; rfl
      simp only [if_pos h]
      rw [ih (some m.content) l0]
      rw [List.filter_cons, hsys, List.filter_cons, hnot]
      simp only [if_true]
      rw [getLast?_cons_eq]
      cases hl : (tl.filter isSystemRole).getLast? with
      | none => simp
      | some m2 => simp
    · have hsys : isSystemRole m = false := decide_eq_false h
      have hnot : notSystemRole m = true := by
        rw [notSystemRole, hsys]; rfl
      simp only [if_neg h]
      rw [ih s0 (l0 ++ [m])]
      rw [List.filter_cons, hsys, List.filter_cons, hnot]
      simp

theorem extractBlocks_spec (content_blocks : List Block) :
    ∀ (t0 : Str) (r0 : Option Str),
      content_blocks.foldl
        (fun acc block =>
          if block.type = str "text" then (acc.1 ++ block.text, acc.2)
          else if block.type = str "thinking" then (acc.1, some block.thinking)
          else acc) (t0, r0) =
      (t0 ++ concatAll ((content_blocks.filter isTextBlock).map Block.text),
        match (content_blocks.filter isThinkingBlock).getLast? with
        | some b => some b.thinking
        | none => r0) := by
  induction content_blocks with
  | nil => intro t0 r0; simp [concatAll]
  | cons b tl ih =>
    intro t0 r0
    rw [List.foldl_cons]
    by_cases ht : b.type = str "text"
    · have h1 : isTextBlock b = true := decide_eq_true ht
      have h2 : isThinkingBlock b = false := by
        apply decide_eq_false
        rw [ht]
        decide
      simp only [if_pos ht]
      rw [ih (t0 ++ b.text) r0]
      rw [List.filter_cons, h1, List.filter_cons, h2]
      simp [concatAll]
    · by_cases hk : b.type = str "thinking"
      · have h1 : isTextBlock b = false := decide_eq_false ht
        have h2 : isThinkingBlock b = true := decide_eq_true hk
        simp only [if_neg ht, if_pos hk]
        rw [ih t0 (some b.thinking)]
        rw [List.filter_cons, h1, List.filter_cons, h2]
        simp only [if_false, if_true]
        rw [getLast?_cons_eq]
        cases hl : (tl.filter isThinkingBlock).getLast? with
        | none => simp
        | some b2 => simp
      · have h1 : isTextBlock b = false := decide_eq_false ht
        have h2 : isThinkingBlock b = false := decide_eq_false hk
        simp only [if_neg ht, if_neg hk]
        rw [ih t0 r0]
        rw [List.filter_cons, h1, List.filter_cons, h2]
        simp

/-- A message sequence whose leading system message is followed by a later
system message. -/
def mixedSystemMsgs : List Msg :=
  [⟨str "system", str "A"⟩, ⟨str "user", str "hi"⟩, ⟨str "system", str "B"⟩]

/-- C6 counterexample: the leading system message (content `"A"`) is *not*
what lands in the top-level `system` field of the request — the adapter keeps the
*last* system message (content `"B"`). -/
theorem anthropic_system_not_leading :
    mixedSystemMsgs.head? = some ⟨str "system", str "A"⟩ ∧
    (anthropicPayload (str "claude-x") mixedSystemMsgs).system =
      some (str "B") ∧
    some (str "B") ≠ some (str "A") := by
  refine ⟨rfl, rfl, ?_⟩
  decide

/-- C6 (amended): the Anthropic adapter removes *every* system message from
the message list of the request (order of the rest preserved); the top-level
`system` field holds the content of the *last* system message, omitted when
that content is empty or when there is no system message; the returned
content is the in-order concatenation of all `"text"`-typed blocks; the
`reasoning` field is the `thinking` of the *last* `"thinking"`-typed block,
if any. -/
theorem anthropic_translation (model : Str) (messages : List Msg)
    (content_blocks : List Block) :
    (anthropicPayload model messages).messages =
      messages.filter notSystemRole ∧
    (anthropicPayload model messages).system =
      (match (messages.filter isSystemRole).getLast? with
        | some m => if m.content.isEmpty then none else some m.content
        | none => none) ∧
    (extractBlocks content_blocks).1 =
      concatAll ((content_blocks.filter isTextBlock).map Block.text) ∧
    (extractBlocks content_blocks).2 =
      ((content_blocks.filter isThinkingBlock).getLast?).map Block.thinking := by
  have hsm := systemAndMessages_spec messages none []
  have heb := extractBlocks_spec content_blocks [] none
  refine ⟨?_, ?_, ?_, ?_⟩
  · rw [anthropicPayload]
    simp only [systemAndMessages, hsm]
    rfl
  · rw [anthropicPayload]
    simp only [systemAndMessages, hsm]
    cases hl : (messages.filter isSystemRole).getLast? with
    | none => rfl
    | some m => rfl
  · rw [extractBlocks, heb]
    simp
  · rw [extractBlocks, heb]
    cases hl : (content_blocks.filter isThinkingBlock).getLast? with
    | none => rfl
    | some b => rfl

/-! ## C7 : prompt flattening -/

/-- Spec-side rendering of one message (from the words of the spec): system
messages as `System: ...` lines, user messages verbatim, assistant messages
as `Assistant: ...` lines. -/
def renderMsgSpec (m : Msg) : Str :=
  if m.role = str "system" then str "System: " ++ m.content
  else if m.role = str "user" then m.content
  else str "Assistant: " ++ m.content

/-- C7: for every message sequence over the three roles, the single prompt
built by the CLI adapter renders each message per the spec and joins them
with blank-line separators, preserving order. -/
theorem cli_prompt_flattening (messages : List Msg)
    (h : ∀ m ∈ messages, m.role = str "system" ∨ m.role = str "user" ∨
      m.role = str "assistant") :
    buildPrompt messages =
      List.intercalate (str "\n\n") (messages.map renderMsgSpec) := by
  have key : ∀ (ms : List Msg),
      (∀ m ∈ ms, m.role = str "system" ∨ m.role = str "user" ∨
        m.role = str "assistant") →
      ms.filterMap renderMsg = ms.map renderMsgSpec := by
    intro ms
    induction ms with
    | nil => intro _; rfl
    | cons m tl ih =>
      intro hh
      have hm := hh m (List.mem_cons_self m tl)
      have hr : renderMsg m = some (renderMsgSpec m) := by
        rcases hm with h1 | h1 | h1
        · rw [renderMsg, renderMsgSpec, if_pos h1, if_pos h1]
        · have hns : ¬ m.role = str "system" := by rw [h1]; decide
          rw [renderMsg, renderMsgSpec, if_neg hns, if_neg hns, if_pos h1,
            if_pos h1]
        · have hns : ¬ m.role = str "system" := by rw [h1]; decide
          have hnu : ¬ m.role = str "user" := by rw [h1]; decide
          rw [renderMsg, renderMsgSpec, if_neg hns, if_neg hns, if_neg hnu,
            if_neg hnu, if_pos h1]
      rw [List.map_cons, ← ih (fun x hx => hh x (List.mem_cons_of_mem m hx))]
      simp [List.filterMap_cons, hr]
  rw [buildPrompt, key messages h]

/-- A three-role conversation used as concrete input. -/
def demoConversation : List Msg :=
  [⟨str "system", str "Be brief."⟩, ⟨str "user", str "Hello?"⟩,
   ⟨str "assistant", str "Hi."⟩]

/-- Witness for `cli_prompt_flattening` at a concrete conversation. -/
theorem cli_prompt_flattening_witness :
    buildPrompt demoConversation =
      List.intercalate (str "\n\n") (demoConversation.map renderMsgSpec) :=
  cli_prompt_flattening demoConversation (by decide)

/-! ## C5 : an absent CLI tool is reported before any spawn -/

/-- C5: when the command of the tool is not on the PATH, `query_cli` returns the
error dict with a non-empty message and an empty effect trace: no temp file
is created and no subprocess is spawned. -/
theorem cli_absent_reports_before_spawn (env : CliEnv) (cli_name : Str)
    (config : CliConfig) (messages : List Msg) (timeout : Nat)
    (hcfg : List.lookup cli_name CLI_COMMANDS = some config)
    (habs : env.which config.command = false) :
    ∃ m, query_cli env cli_name messages timeout = (Resp.errDict m, []) ∧
      m ≠ [] := by
  refine ⟨str "Error: CLI command " ++ sq ++ config.command ++ sq
      ++ str " not found in PATH", ?_, ?_⟩
  · simp only [query_cli]
    rw [hcfg]
    dsimp only
    rw [habs]
    rfl
  · exact append_ne_nil_left (append_ne_nil_left (append_ne_nil_left
      (append_ne_nil_left (by decide))))

/-- Witness for `cli_absent_reports_before_spawn`: the `gemini` tool with an
empty PATH. -/
theorem cli_absent_reports_before_spawn_witness :
    ∃ m, query_cli emptyCliEnv (str "gemini") [] 120 = (Resp.errDict m, []) ∧
      m ≠ [] :=
  cli_absent_reports_before_spawn emptyCliEnv (str "gemini") geminiConfig []
    120 (by decide) rfl

/-! ## C8 : temp-file cleanup on every exit path -/

theorem promptDelivery_effs (config : CliConfig) (tn : Str) (cmd0 : List Str)
    (prompt : Str) :
    (promptDelivery config tn cmd0 prompt).2.2 =
      if config.use_output_file then [Eff.createTemp tn] else [] := by
  rw [promptDelivery]
  by_cases h : config.use_output_file = true
  · rw [if_pos h, if_pos h]
  · rw [if_neg h, if_neg h]
    split_ifs <;> rfl

/-- C8: on every exit path of `query_cli` (normal completion, non-zero
exit, timeout, exception, file-read failure), a temp file the adapter
created is unlinked, and the unlink is the final effect before the call
returns. -/
theorem cli_temp_file_cleanup (env : CliEnv) (cli_name : Str)
    (messages : List Msg) (timeout : Nat) (n : Str)
    (hc : Eff.createTemp n ∈ (query_cli env cli_name messages timeout).2) :
    Eff.unlink n ∈ (query_cli env cli_name messages timeout).2 ∧
    (query_cli env cli_name messages timeout).2.getLast? =
      some (Eff.unlink n) := by
  revert hc
  simp only [query_cli]
  cases hl : List.lookup cli_name CLI_COMMANDS with
  | none =>
    intro hc
    simp at hc
  | some config =>
    dsimp only
    cases hw : env.which config.command with
    | false =>
      intro hc
      simp at hc
    | true =>
      simp only [Bool.not_true]
      rw [if_neg (by simp)]
      dsimp only
      rw [promptDelivery_effs]
      by_cases hu : config.use_output_file = true
      · rw [if_pos hu, if_pos hu]
        intro hc
        simp only [List.cons_append, List.nil_append, List.mem_cons,
          List.not_mem_nil, or_false] at hc
        rcases hc with h1 | h1 | h1
        · have hn : n = env.tempName := by
            injection h1
          subst hn
          exact ⟨by simp, rfl⟩
        · cases h1
        · cases h1
      · rw [if_neg hu, if_neg hu]
        intro hc
        simp at hc

/-- A CLI world where `codex` (an output-file tool) is installed and
succeeds. -/
def codexCliEnv : CliEnv :=
  { which := fun _ => true
    run := fun _ _ => RunOutcome.completed 0 (str "ignored") []
    tempName := str "tmp0001.txt"
    readTemp := fun _ => Except.ok (str "the answer") }

/-- Witness for `cli_temp_file_cleanup`: a successful `codex` run creates
the temp file and the trace ends with its unlink. -/
theorem cli_temp_file_cleanup_witness :
    Eff.unlink (str "tmp0001.txt") ∈
      (query_cli codexCliEnv (str "codex") [] 120).2 ∧
    (query_cli codexCliEnv (str "codex") [] 120).2.getLast? =
      some (Eff.unlink (str "tmp0001.txt")) :=
  cli_temp_file_cleanup codexCliEnv (str "codex") [] 120 (str "tmp0001.txt")
    (by decide)

/-! ## C1 : what the adapters return on failure -/

/-- C1 counterexample: with no credential configured, the hosted OpenAI
adapter returns `None` — a null result in place of a QueryResult-shaped
value — rather than a `failed=true` value. -/
theorem openai_missing_key_returns_none :
    query_openai none (fun _ _ => HttpOutcome.exn (str "transport error"))
      (str "gpt-4o") [] 120 = none := rfl

/-- C1 (amended): every adapter is total (never raises past its boundary),
but the failure *shape* differs by family. The three hosted-HTTP adapters
return `None` on missing or empty credential, on a non-success status, and
on any exception (transport or decode failure), and return the decoded dict
on success. Only the local-process CLI adapter returns an error-dict value
with a non-empty human-readable message — on unknown tool, command absent
from the PATH, timeout, spawn/other exception, non-zero exit, and
output-file read failure — and returns the success dict otherwise. -/
theorem adapter_failure_values :
    (∀ respond model messages timeout,
      query_openai none respond model messages timeout = none) ∧
    (∀ respond model messages timeout,
      query_openai (some []) respond model messages timeout = none) ∧
    (∀ key model messages timeout code text,
      query_openai key (fun _ _ => HttpOutcome.statusError code text) model
        messages timeout = none) ∧
    (∀ key model messages timeout m,
      query_openai key (fun _ _ => HttpOutcome.exn m) model messages
        timeout = none) ∧
    (∀ c cs model messages timeout body,
      query_openai (some (c :: cs)) (fun _ _ => HttpOutcome.ok body) model
        messages timeout =
        some (Resp.full body.content body.reasoning_details)) ∧
    (∀ respond model messages timeout,
      query_openrouter none respond model messages timeout = none) ∧
    (∀ respond model messages timeout,
      query_openrouter (some []) respond model messages timeout = none) ∧
    (∀ key model messages timeout code text,
      query_openrouter key (fun _ _ => HttpOutcome.statusError code text)
        model messages timeout = none) ∧
    (∀ key model messages timeout m,
      query_openrouter key (fun _ _ => HttpOutcome.exn m) model messages
        timeout = none) ∧
    (∀ c cs model messages timeout body,
      query_openrouter (some (c :: cs)) (fun _ _ => HttpOutcome.ok body)
        model messages timeout =
        some (Resp.full body.content body.reasoning_details)) ∧
    (∀ respond model messages timeout,
      query_anthropic none respond model messages timeout = none) ∧
    (∀ respond model messages timeout,
      query_anthropic (some []) respond model messages timeout = none) ∧
    (∀ key model messages timeout code text,
      query_anthropic key (fun _ => HttpOutcome.statusError code text) model
        messages timeout = none) ∧
    (∀ key model messages timeout m,
      query_anthropic key (fun _ => HttpOutcome.exn m) model messages
        timeout = none) ∧
    (∀ c cs model messages timeout content_blocks,
      query_anthropic (some (c :: cs))
        (fun _ => HttpOutcome.ok content_blocks) model messages timeout =
        some (Resp.full (some (extractBlocks content_blocks).1)
          (extractBlocks content_blocks).2)) ∧
    (∀ env messages timeout, ∃ m,
      (query_cli env (str "claude-code") messages timeout).1 =
        Resp.errDict m ∧ m ≠ []) ∧
    (∀ run tn rt messages timeout, ∃ m,
      (query_cli ⟨fun _ => false, run, tn, rt⟩ (str "gemini") messages
        timeout).1 = Resp.errDict m ∧ m ≠ []) ∧
    (∀ tn rt messages timeout, ∃ m,
      (query_cli ⟨fun _ => true, fun _ _ => RunOutcome.timedOut, tn, rt⟩
        (str "claude") messages timeout).1 = Resp.errDict m ∧ m ≠ []) ∧
    (∀ tn rt em messages timeout, ∃ m,
      (query_cli ⟨fun _ => true, fun _ _ => RunOutcome.exn em, tn, rt⟩
        (str "gemini") messages timeout).1 = Resp.errDict m ∧ m ≠ []) ∧
    (∀ tn rt sout serr messages timeout, ∃ m,
      (query_cli ⟨fun _ => true,
        fun _ _ => RunOutcome.completed 1 sout serr, tn, rt⟩
        (str "codex") messages timeout).1 = Resp.errDict m ∧ m ≠ []) ∧
    (∀ tn em sout serr messages timeout, ∃ m,
      (query_cli ⟨fun _ => true,
        fun _ _ => RunOutcome.completed 0 sout serr, tn,
        fun _ => Except.error em⟩
        (str "codex") messages timeout).1 = Resp.errDict m ∧ m ≠ []) ∧
    (∀ tn rt sout serr messages timeout,
      (query_cli ⟨fun _ => true,
        fun _ _ => RunOutcome.completed 0 sout serr, tn, rt⟩
        (str "claude") messages timeout).1 =
        Resp.full (some (stripStr sout)) none) ∧
    (∀ tn fc sout serr messages timeout,
      (query_cli ⟨fun _ => true,
        fun _ _ => RunOutcome.completed 0 sout serr, tn,
        fun _ => Except.ok fc⟩
        (str "codex") messages timeout).1 =
        Resp.full (some (stripStr fc)) none) := by
  refine ⟨?_, ?_, ?_, ?_, ?_, ?_, ?_, ?_, ?_, ?_, ?_, ?_, ?_, ?_, ?_, ?_,
    ?_, ?_, ?_, ?_, ?_, ?_, ?_⟩
  · intro respond model messages timeout; rfl
  · intro respond model messages timeout; rfl
  · intro key model messages timeout code text
    rw [query_openai]
    by_cases h : truthyOpt key = true
    · rw [if_neg (by simp [h])]
    · rw [if_pos (by simp [Bool.not_eq_true, ← Bool.not_eq_true] at h ⊢; simp [h])]
  · intro key model messages timeout m
    rw [query_openai]
    by_cases h : truthyOpt key = true
    · rw [if_neg (by simp [h])]
    · rw [if_pos (by simp [Bool.not_eq_true, ← Bool.not_eq_true] at h ⊢; simp [h])]
  · intro c cs model messages timeout body; rfl
  · intro respond model messages timeout; rfl
  · intro respond model messages timeout; rfl
  · intro key model messages timeout code text
    rw [query_openrouter]
    by_cases h : truthyOpt key = true
    · rw [if_neg (by simp [h])]
    · rw [if_pos (by simp [Bool.not_eq_true, ← Bool.not_eq_true] at h ⊢; simp [h])]
  · intro key model messages timeout m
    rw [query_openrouter]
    by_cases h : truthyOpt key = true
    · rw [if_neg (by simp [h])]
    · rw [if_pos (by simp [Bool.not_eq_true, ← Bool.not_eq_true] at h ⊢; simp [h])]
  · intro c cs model messages timeout body; rfl
  · intro respond model messages timeout; rfl
  · intro respond model messages timeout; rfl
  · intro key model messages timeout code text
    rw [query_anthropic]
    by_cases h : truthyOpt key = true
    · rw [if_neg (by simp [h])]
    · rw [if_pos (by simp [Bool.not_eq_true, ← Bool.not_eq_true] at h ⊢; simp [h])]
  · intro key model messages timeout m
    rw [query_anthropic]
    by_cases h : truthyOpt key = true
    · rw [if_neg (by simp [h])]
    · rw [if_pos (by simp [Bool.not_eq_true, ← Bool.not_eq_true] at h ⊢; simp [h])]
  · intro c cs model messages timeout content_blocks; rfl
  · intro env messages timeout
    refine ⟨_, rfl, ?_⟩
    repeat apply append_ne_nil_left
    decide
  · intro run tn rt messages timeout
    refine ⟨_, rfl, ?_⟩
    repeat apply append_ne_nil_left
    decide
  · intro tn rt messages timeout
    refine ⟨_, rfl, ?_⟩
    repeat apply append_ne_nil_left
    decide
  · intro tn rt em messages timeout
    refine ⟨_, rfl, ?_⟩
    repeat apply append_ne_nil_left
    decide
  · intro tn rt sout serr messages timeout
    refine ⟨_, rfl, ?_⟩
    repeat apply append_ne_nil_left
    decide
  · intro tn em sout serr messages timeout
    refine ⟨_, rfl, ?_⟩
    repeat apply append_ne_nil_left
    decide
  · intro tn rt sout serr messages timeout; rfl
  · intro tn fc sout serr messages timeout; rfl

end LLMCouncil
